import Mathlib

/-!
Verification development for the Gemini session-orchestration engine
(`gemini_automation_extended.py`, the operative implementation; the older
`gemini_automation.py` contains an earlier draft of the same manager).

The Python code is shallowly embedded: Python strings are `List Char`,
Python ints are `Nat` (for counters only ever incremented or reset to 0)
or `Int` (for `active_sessions`, which is decremented without a guard),
the task dictionary is a total map `Str → Task`, and the session registry
`self.session_tasks` is a list of entries.  Cooperative concurrency is
modelled by oracles: the status value observed at each loop check and the
event (success / timeout / cancellation / error) occurring in each
iteration are inputs to the embedded functions.  Suspension points are
those named in the design (the sleeps and bounded waits inside the
Starting / Interacting / AwaitingOutcome phases).
-/

namespace GeminiAuto

/-- Python strings, modelled as lists of characters. -/
abbrev Str := List Char

/-- Values of `Task.status`: `"pending"`, `"running"`, `"stopped"`, `"completed"`. -/
inductive TaskStatus
  | pending
  | running
  | stopped
  | completed
deriving DecidableEq, Repr

/-- One entry of `Task.results` as appended by `Task.save_result`
(`gemini_automation_extended.py` lines 51-58): the session id, the success
flag and the `{'iteration': iteration}` payload.  The wall-clock timestamp
is outside the model. -/
structure SResult where
  session_id : Str
  success : Bool
  iteration : Nat
deriving DecidableEq, Repr

/-- The `Task` dataclass (`gemini_automation_extended.py` lines 33-44).
`created_at` is wall-clock time and outside the model.  `active_sessions`
is `Int` because the code decrements it without a lower-bound guard. -/
structure Task where
  id : Str
  prompt : Str
  session_count : Nat
  status : TaskStatus
  active_sessions : Int
  completed_sessions : Nat
  failed_sessions : Nat
  results : List SResult
deriving DecidableEq, Repr

/-- The payload written by `Task.save_to_file`
(`gemini_automation_extended.py` lines 64-78): a full dump of task id,
prompt, session count, both counters and the results list. -/
structure Snapshot where
  task_id : Str
  prompt : Str
  session_count : Nat
  completed_sessions : Nat
  failed_sessions : Nat
  results : List SResult
deriving DecidableEq, Repr

/-- The snapshot `save_to_file` produces from the current task state. -/
def Task.snapshot (t : Task) : Snapshot :=
  ⟨t.id, t.prompt, t.session_count, t.completed_sessions, t.failed_sessions, t.results⟩

/-- The method `Task.save_result` (`gemini_automation_extended.py` lines 51-62):
append the outcome record, then call `save_to_file` exactly when the new
results length is a multiple of 10.  Returns the updated task and the
list of snapshots written (empty or a singleton). -/
def Task.save_result (t : Task) (session_id : Str) (success : Bool) (iteration : Nat) :
    Task × List Snapshot :=
  let t' : Task := { t with results := t.results ++ [⟨session_id, success, iteration⟩] }
  if t'.results.length % 10 = 0 then (t', [t'.snapshot]) else (t', [])

/-! ## Wave planning (`run_task`, lines 349-383) -/

/-- The wave plan computed at the top of `run_task`
(`gemini_automation_extended.py` lines 351-367; identical logic in
`gemini_automation.py` lines 190-206).  `rng lo hi` models
`random.randint(lo, hi)` (inclusive bounds); the inter-wave delay is
real-valued wall-clock time and not part of the plan model. -/
structure WavePlan where
  sessions_per_wave : Nat
  waves_count : Nat
deriving DecidableEq, Repr

def planWaves (session_count : Nat) (rng : Nat → Nat → Nat) : WavePlan :=
  if session_count ≤ 100 then
    let spw := min 3 (max 1 (session_count / 5))
    ⟨spw, (session_count + spw - 1) / spw⟩
  else if session_count ≤ 500 then
    let spw := rng 5 10
    ⟨spw, (session_count + spw - 1) / spw⟩
  else
    let spw := rng 10 20
    ⟨spw, (session_count + spw - 1) / spw⟩

/-- The size of wave `wave_num` (`run_task` lines 380-383):
`min(sessions_per_wave, session_count - wave_num * sessions_per_wave)`,
computed in `Int` because Python subtraction is signed. -/
def sessions_in_wave (session_count spw wave_num : Nat) : Int :=
  min (spw : Int) ((session_count : Int) - (wave_num : Int) * (spw : Int))

/-- An RNG faithful to `random.randint`: the draw lies in `[lo, hi]`. -/
def RandintSpec (rng : Nat → Nat → Nat) : Prop :=
  ∀ lo hi : Nat, lo ≤ hi → lo ≤ rng lo hi ∧ rng lo hi ≤ hi

lemma planWaves_spw_pos (session_count : Nat) (rng : Nat → Nat → Nat)
    (hrng : RandintSpec rng) :
    1 ≤ (planWaves session_count rng).sessions_per_wave := by
  unfold planWaves
  split
  · simp only []
    omega
  · split
    · exact le_trans (by norm_num) (hrng 5 10 (by norm_num)).1
    · exact le_trans (by norm_num) (hrng 10 20 (by norm_num)).1

lemma planWaves_wc (session_count : Nat) (rng : Nat → Nat → Nat) :
    (planWaves session_count rng).waves_count =
      (session_count + (planWaves session_count rng).sessions_per_wave - 1) /
        (planWaves session_count rng).sessions_per_wave := by
  unfold planWaves
  split
  · rfl
  · split <;> rfl

/-- The code's `(n + spw - 1) / spw` is ceiling division. -/
lemma waves_count_eq_ceilDiv (n spw : Nat) :
    (n + spw - 1) / spw = n ⌈/⌉ spw :=
  (Nat.ceilDiv_eq_add_pred_div n spw).symm

/-- Characterisation of the wave count: `spw * (W - 1) < n ≤ spw * W`. -/
lemma ceil_bounds (n spw : Nat) (hn : 1 ≤ n) (hspw : 1 ≤ spw) :
    spw * (n ⌈/⌉ spw - 1) < n ∧ n ≤ spw * (n ⌈/⌉ spw) := by
  have hpos : 0 < spw := hspw
  have hub : n ≤ spw * (n ⌈/⌉ spw) := by
    have := le_smul_ceilDiv (b := n) hpos
    simpa [smul_eq_mul] using this
  refine ⟨?_, hub⟩
  by_contra hcon
  push_neg at hcon
  have hW1 : 1 ≤ n ⌈/⌉ spw := by
    rcases Nat.eq_zero_or_pos (n ⌈/⌉ spw) with h0 | h1
    · rw [h0, Nat.mul_zero] at hub
      omega
    · exact h1
  have : n ⌈/⌉ spw ≤ n ⌈/⌉ spw - 1 :=
    (ceilDiv_le_iff_le_mul hpos).2 hcon
  omega

/-- The sum of wave sizes over the whole plan equals the session count;
no induction is needed, every wave but the last is full. -/
lemma wave_sum (n spw W : Nat)
    (hlo : spw * (W - 1) < n) (hhi : n ≤ spw * W) :
    ∑ i ∈ Finset.range W, sessions_in_wave n spw i = (n : Int) := by
  cases W with
  | zero => simp at hhi; omega
  | succ W' =>
    rw [Finset.sum_range_succ]
    have hfull : ∀ i ∈ Finset.range W', sessions_in_wave n spw i = (spw : Int) := by
      intro i hi
      rw [Finset.mem_range] at hi
      unfold sessions_in_wave
      have h1 : spw * (i + 1) ≤ n := by
        have : spw * (i + 1) ≤ spw * W' := Nat.mul_le_mul_left spw hi
        have hlo' : spw * W' < n := by simpa using hlo
        omega
      have : (spw : Int) ≤ (n : Int) - (i : Int) * (spw : Int) := by
        have h1' : (spw : Int) * ((i : Int) + 1) ≤ (n : Int) := by exact_mod_cast h1
        nlinarith
      omega
    rw [Finset.sum_congr rfl hfull, Finset.sum_const, Finset.card_range]
    have hlast : sessions_in_wave n spw W' = (n : Int) - (W' : Int) * (spw : Int) := by
      unfold sessions_in_wave
      have hhi' : (n : Int) ≤ (spw : Int) * ((W' : Int) + 1) := by exact_mod_cast hhi
      have : (n : Int) - (W' : Int) * (spw : Int) ≤ (spw : Int) := by nlinarith
      omega
    rw [hlast]
    ring

/-- Size bounds for each wave of a plan: every wave launches at least one
session and never more than `sessions_per_wave`. -/
lemma wave_size_bounds (n spw W i : Nat) (hspw : 1 ≤ spw)
    (hlo : spw * (W - 1) < n) (hi : i < W) :
    1 ≤ sessions_in_wave n spw i ∧ sessions_in_wave n spw i ≤ (spw : Int) := by
  constructor
  · unfold sessions_in_wave
    have h1 : spw * i < n := by
      have : spw * i ≤ spw * (W - 1) := Nat.mul_le_mul_left spw (by omega)
      omega
    have h1' : (spw : Int) * (i : Int) < (n : Int) := by exact_mod_cast h1
    have hspw' : (1 : Int) ≤ (spw : Int) := by exact_mod_cast hspw
    have : (1 : Int) ≤ (n : Int) - (i : Int) * (spw : Int) := by nlinarith
    omega
  · exact min_le_left _ _

/-- C1.  For every `sessionCount ≥ 1`, the wave plan computed when a task
starts satisfies: `sessionsPerWave ≥ 1`; `waveCount` is the ceiling of
`sessionCount / sessionsPerWave`; every wave size is the code's
`min(sessionsPerWave, sessionCount - waveIndex * sessionsPerWave)`, lies
between 1 and `sessionsPerWave`; and the wave sizes sum to `sessionCount`
exactly. -/
theorem c1_wave_plan (n : Nat) (rng : Nat → Nat → Nat)
    (hn : 1 ≤ n) (hrng : RandintSpec rng) :
    1 ≤ (planWaves n rng).sessions_per_wave ∧
    (planWaves n rng).waves_count = n ⌈/⌉ (planWaves n rng).sessions_per_wave ∧
    (∀ i, i < (planWaves n rng).waves_count →
      1 ≤ sessions_in_wave n (planWaves n rng).sessions_per_wave i ∧
      sessions_in_wave n (planWaves n rng).sessions_per_wave i
        ≤ ((planWaves n rng).sessions_per_wave : Int)) ∧
    ∑ i ∈ Finset.range (planWaves n rng).waves_count,
      sessions_in_wave n (planWaves n rng).sessions_per_wave i = (n : Int) := by
  have hspw : 1 ≤ (planWaves n rng).sessions_per_wave := planWaves_spw_pos n rng hrng
  have hwc : (planWaves n rng).waves_count = n ⌈/⌉ (planWaves n rng).sessions_per_wave := by
    rw [planWaves_wc n rng, waves_count_eq_ceilDiv]
  obtain ⟨hlo, hhi⟩ := ceil_bounds n (planWaves n rng).sessions_per_wave hn hspw
  refine ⟨hspw, hwc, ?_, ?_⟩
  · intro i hi
    exact wave_size_bounds n _ (n ⌈/⌉ (planWaves n rng).sessions_per_wave) i hspw hlo
      (hwc ▸ hi)
  · rw [hwc]
    exact wave_sum n _ _ hlo hhi

/-- Witness for C1 at `sessionCount = 7` with the smallest-draw RNG. -/
theorem c1_wave_plan_witness :
    RandintSpec (fun lo _ => lo) ∧
    (1 ≤ (planWaves 7 (fun lo _ => lo)).sessions_per_wave ∧
    (planWaves 7 (fun lo _ => lo)).waves_count
      = 7 ⌈/⌉ (planWaves 7 (fun lo _ => lo)).sessions_per_wave ∧
    (∀ i, i < (planWaves 7 (fun lo _ => lo)).waves_count →
      1 ≤ sessions_in_wave 7 (planWaves 7 (fun lo _ => lo)).sessions_per_wave i ∧
      sessions_in_wave 7 (planWaves 7 (fun lo _ => lo)).sessions_per_wave i
        ≤ ((planWaves 7 (fun lo _ => lo)).sessions_per_wave : Int)) ∧
    ∑ i ∈ Finset.range (planWaves 7 (fun lo _ => lo)).waves_count,
      sessions_in_wave 7 (planWaves 7 (fun lo _ => lo)).sessions_per_wave i = (7 : Int)) :=
  ⟨fun lo _hi h => ⟨Nat.le_refl lo, h⟩,
   c1_wave_plan 7 (fun lo _ => lo) (by norm_num) (fun lo _hi h => ⟨Nat.le_refl lo, h⟩)⟩

/-! ## Session state machine (`create_session`, lines 113-286) -/

/-- What happens inside one iteration of a session's `while` loop
(`create_session` lines 170-241).  The oracle value for iteration `i`:

* `ok` — every bounded wait succeeds; the iteration reaches lines 231-232.
* `restartTimeout` — only the 60 s wait for the `Restart` affordance
  expires; `_wait_and_click_restart` (lines 316-334) catches and swallows
  that `PlaywrightTimeoutError`, so the iteration still reaches 231-232.
* `timeout` — any other bounded wait (page load, input field, submit
  button) expires; caught at lines 235-238.
* `cancelled` — a `CancelledError` is delivered at a suspension point
  inside the iteration; caught at lines 239-241.
* `error` — any other driver exception; it is not caught by the inner
  handlers and propagates to line 281. -/
inductive IterEvent
  | ok
  | restartTimeout
  | timeout
  | cancelled
  | error
deriving DecidableEq, Repr

/-- How a session ends, following the design's state-machine vocabulary. -/
inductive SessionExit
  | done
  | timedOut
  | cancelled
  | errored
deriving DecidableEq, Repr

/-- What happens before the session enters its iteration loop
(`create_session` lines 129-162): the start-delay sleep, browser check and
context acquisition either proceed normally, are cancelled (the
`CancelledError` is caught only by the outer handler at lines 278-280), or
raise some other exception (outer handler at lines 281-283). -/
inductive PreEvent
  | proceed
  | cancelledBefore
  | errorBefore
deriving DecidableEq, Repr

/-- The iteration loop of `create_session` (lines 165-241):
`while task.status == "running" and iteration < 5`.  `statusAt i` is the
value of `task.status` observed at the check with `iteration = i`
(concurrent mutation oracle); `events i` is what happens inside the body
that sets `iteration = i`.  A successful iteration runs lines 231-232:
increment `completed_sessions`, then `save_result(session_id, True)`.
The first `Nat` argument is structural fuel maintained at
`5 - iteration` (so the fuel-0 arm is only reached with `iteration = 5`,
where the loop condition is false anyway and the result is the same
normal exit); `create_session` starts the loop at fuel 5, iteration 0. -/
def session_iters (statusAt : Nat → TaskStatus) (events : Nat → IterEvent) (sid : Str) :
    Nat → Nat → Task → Task × List Snapshot × SessionExit
  | 0, _, t => (t, [], .done)
  | fuel + 1, iteration, t =>
    if statusAt iteration = .running ∧ iteration < 5 then
      match events (iteration + 1) with
      | .ok | .restartTimeout =>
        let t1 : Task := { t with completed_sessions := t.completed_sessions + 1 }
        let (t2, snaps) := t1.save_result sid true (iteration + 1)
        let (t3, snaps2, ex) := session_iters statusAt events sid fuel (iteration + 1) t2
        (t3, snaps ++ snaps2, ex)
      | .timeout => ({ t with failed_sessions := t.failed_sessions + 1 }, [], .timedOut)
      | .cancelled => (t, [], .cancelled)
      | .error => (t, [], .errored)
    else (t, [], .done)

/-- The whole of `create_session` (lines 113-286) for one session.  On
`proceed`: increment `active_sessions` (line 161), run the iteration
loop, and decrement `active_sessions` in the inner `finally` (line 244);
if an uncaught driver error ended the loop, the outer handler then adds a
failure (lines 281-283).  A cancellation or error before the loop is
caught by the outer handlers, each of which increments
`failed_sessions`; `active_sessions` was never incremented on that path. -/
def create_session (pre : PreEvent) (statusAt : Nat → TaskStatus)
    (events : Nat → IterEvent) (sid : Str) (t : Task) :
    Task × List Snapshot × SessionExit :=
  match pre with
  | .cancelledBefore =>
    ({ t with failed_sessions := t.failed_sessions + 1 }, [], .cancelled)
  | .errorBefore =>
    ({ t with failed_sessions := t.failed_sessions + 1 }, [], .errored)
  | .proceed =>
    let t1 : Task := { t with active_sessions := t.active_sessions + 1 }
    let (t2, snaps, ex) := session_iters statusAt events sid 5 0 t1
    let t3 : Task := { t2 with active_sessions := t2.active_sessions - 1 }
    match ex with
    | .errored => ({ t3 with failed_sessions := t3.failed_sessions + 1 }, snaps, .errored)
    | _ => (t3, snaps, ex)

/-! ## Lemmas about one session run -/

@[simp] lemma save_result_fst (t : Task) (sid : Str) (suc : Bool) (it : Nat) :
    (t.save_result sid suc it).1 = { t with results := t.results ++ [⟨sid, suc, it⟩] } := by
  unfold Task.save_result
  dsimp only
  split <;> rfl

/-- Projections of `session_iters` when the status stays `running` and
every iteration succeeds (possibly via a swallowed restart-wait timeout):
starting the loop with `iteration = k`, it performs the remaining `5 - k`
iterations, adds one `completed_sessions` per iteration, touches neither
`failed_sessions` nor `active_sessions`, appends only success records and
exits as `done`. -/
lemma session_iters_all_ok (statusAt : Nat → TaskStatus) (events : Nat → IterEvent)
    (sid : Str) (hs : ∀ i, statusAt i = .running)
    (he : ∀ i, events i = .ok ∨ events i = .restartTimeout) :
    ∀ d k t, k + d = 5 →
      (session_iters statusAt events sid d k t).1.completed_sessions
          = t.completed_sessions + d ∧
      (session_iters statusAt events sid d k t).1.failed_sessions = t.failed_sessions ∧
      (session_iters statusAt events sid d k t).1.active_sessions = t.active_sessions ∧
      (session_iters statusAt events sid d k t).2.2 = .done := by
  intro d
  induction d with
  | zero =>
    intro k t hk
    simp [session_iters]
  | succ d ih =>
    intro k t hk
    rw [session_iters, if_pos ⟨hs k, by omega⟩]
    obtain ⟨ih1, ih2, ih3, ih4⟩ := ih (k + 1)
      { t with completed_sessions := t.completed_sessions + 1,
               results := t.results ++ [⟨sid, true, k + 1⟩] } (by omega)
    rcases he (k + 1) with hev | hev <;> rw [hev] <;> dsimp only <;>
      refine ⟨?_, ?_, ?_, ?_⟩ <;>
      simp [ih1, ih2, ih3, ih4] <;> omega

/-- C2.  A session that is never cancelled and never hits an
iteration-aborting bounded-wait timeout (every iteration succeeds, the
task stays `running`) runs to its 5-iteration cap, exits as `done`, and
contributes exactly 5 to `completed_sessions`; `failed_sessions` and
`active_sessions` are left unchanged. -/
theorem c2_five_iteration_cap (t : Task) (sid : Str) (statusAt : Nat → TaskStatus)
    (events : Nat → IterEvent)
    (hs : ∀ i, statusAt i = .running) (he : ∀ i, events i = .ok) :
    (create_session .proceed statusAt events sid t).2.2 = .done ∧
    (create_session .proceed statusAt events sid t).1.completed_sessions
      = t.completed_sessions + 5 ∧
    (create_session .proceed statusAt events sid t).1.failed_sessions
      = t.failed_sessions ∧
    (create_session .proceed statusAt events sid t).1.active_sessions
      = t.active_sessions := by
  obtain ⟨h1, h2, h3, h4⟩ := session_iters_all_ok statusAt events sid hs
    (fun i => Or.inl (he i)) 5 0 { t with active_sessions := t.active_sessions + 1 } rfl
  unfold create_session
  dsimp only
  rw [h4]
  dsimp only
  refine ⟨rfl, ?_, ?_, ?_⟩ <;> simp [h1, h2, h3]

/-- Witness for C2 on a concrete fresh task. -/
theorem c2_five_iteration_cap_witness :
    (∀ i : Nat, (fun _ : Nat => TaskStatus.running) i = TaskStatus.running) ∧
    (∀ i : Nat, (fun _ : Nat => IterEvent.ok) i = IterEvent.ok) ∧
    ((create_session .proceed (fun _ => .running) (fun _ => .ok) ['1']
        ⟨['t'], ['p'], 1, .running, 0, 0, 0, []⟩).2.2 = .done ∧
     (create_session .proceed (fun _ => .running) (fun _ => .ok) ['1']
        ⟨['t'], ['p'], 1, .running, 0, 0, 0, []⟩).1.completed_sessions
        = (⟨['t'], ['p'], 1, .running, 0, 0, 0, []⟩ : Task).completed_sessions + 5 ∧
     (create_session .proceed (fun _ => .running) (fun _ => .ok) ['1']
        ⟨['t'], ['p'], 1, .running, 0, 0, 0, []⟩).1.failed_sessions
        = (⟨['t'], ['p'], 1, .running, 0, 0, 0, []⟩ : Task).failed_sessions ∧
     (create_session .proceed (fun _ => .running) (fun _ => .ok) ['1']
        ⟨['t'], ['p'], 1, .running, 0, 0, 0, []⟩).1.active_sessions
        = (⟨['t'], ['p'], 1, .running, 0, 0, 0, []⟩ : Task).active_sessions) :=
  ⟨fun _ => rfl, fun _ => rfl,
   c2_five_iteration_cap ⟨['t'], ['p'], 1, .running, 0, 0, 0, []⟩ ['1']
     (fun _ => .running) (fun _ => .ok) (fun _ => rfl) (fun _ => rfl)⟩

/-- Projections of `session_iters` when iterations `1 .. j-1` succeed and
iteration `j` (with `k < j ≤ 5`, starting from check `k`) hits a
terminating event.  The loop then adds `j - k - 1` to
`completed_sessions`; on a (non-restart) timeout it adds exactly one
failure and exits `timedOut`; on a cancellation or an uncaught driver
error it leaves `failed_sessions` alone (errors are counted in
`create_session`'s outer handler, cancellations never inside the loop);
and every record appended to `results` is a success record. -/
lemma session_iters_stops_at (statusAt : Nat → TaskStatus) (events : Nat → IterEvent)
    (sid : Str) (hs : ∀ i, statusAt i = .running) (j : Nat) (hj5 : j ≤ 5)
    (he : ∀ i, 1 ≤ i → i < j → events i = .ok)
    (hstop : events j = .timeout ∨ events j = .cancelled ∨ events j = .error) :
    ∀ d k t f, k + d + 1 = j → j ≤ k + f →
      (session_iters statusAt events sid f k t).1.completed_sessions
          = t.completed_sessions + d ∧
      (session_iters statusAt events sid f k t).1.active_sessions = t.active_sessions ∧
      (∀ x ∈ (session_iters statusAt events sid f k t).1.results,
        x ∈ t.results ∨ x.success = true) ∧
      (events j = .timeout →
        (session_iters statusAt events sid f k t).1.failed_sessions
            = t.failed_sessions + 1 ∧
        (session_iters statusAt events sid f k t).2.2 = .timedOut) ∧
      (events j = .cancelled →
        (session_iters statusAt events sid f k t).1.failed_sessions = t.failed_sessions ∧
        (session_iters statusAt events sid f k t).2.2 = .cancelled) ∧
      (events j = .error →
        (session_iters statusAt events sid f k t).1.failed_sessions = t.failed_sessions ∧
        (session_iters statusAt events sid f k t).2.2 = .errored) := by
  intro d
  induction d with
  | zero =>
    intro k t f hk hf
    cases f with
    | zero => omega
    | succ f' =>
    rw [session_iters, if_pos ⟨hs k, by omega⟩]
    have hkj : k + 1 = j := by omega
    rcases hstop with hev | hev | hev <;> rw [hkj, hev] <;> dsimp only <;>
      refine ⟨by simp, by simp, fun x hx => Or.inl (by simpa using hx), ?_, ?_, ?_⟩ <;>
      intro hev2 <;> simp_all
  | succ d ih =>
    intro k t f hk hf
    cases f with
    | zero => omega
    | succ f' =>
    rw [session_iters, if_pos ⟨hs k, by omega⟩]
    rw [he (k + 1) (by omega) (by omega)]
    dsimp only
    obtain ⟨ih1, ih2, ih3, ih4, ih5, ih6⟩ := ih (k + 1)
      { t with completed_sessions := t.completed_sessions + 1,
               results := t.results ++ [⟨sid, true, k + 1⟩] } f' (by omega) (by omega)
    refine ⟨?_, ?_, ?_, ?_, ?_, ?_⟩
    · simp only [save_result_fst]
      simp at ih1 ⊢
      omega
    · simpa using ih2
    · intro x hx
      simp only [save_result_fst] at hx
      rcases ih3 x hx with hmem | hsucc
      · simp at hmem
        rcases hmem with hmem | hmem
        · exact Or.inl hmem
        · right
          rw [hmem]
      · exact Or.inr hsucc
    · intro hev
      obtain ⟨ha, hb⟩ := ih4 hev
      exact ⟨by simpa using ha, by simpa using hb⟩
    · intro hev
      obtain ⟨ha, hb⟩ := ih5 hev
      exact ⟨by simpa using ha, by simpa using hb⟩
    · intro hev
      obtain ⟨ha, hb⟩ := ih6 hev
      exact ⟨by simpa using ha, by simpa using hb⟩

/-- C5 counterexample.  The claim says a cancellation is never counted as
a failure.  In the code, a session cancelled at the start-delay sleep (a
suspension point, `create_session` line 132) unwinds to the outer
`except asyncio.CancelledError` handler at lines 278-280, which runs
`task.failed_sessions += 1`: starting from a task with no recorded
failures, the cancelled session leaves `failed_sessions = 1`. -/
theorem c5_counterexample :
    (⟨['t'], ['p'], 1, .running, 0, 0, 0, []⟩ : Task).failed_sessions = 0 ∧
    (create_session .cancelledBefore (fun _ => .running) (fun _ => .ok) ['1']
        ⟨['t'], ['p'], 1, .running, 0, 0, 0, []⟩).2.2 = .cancelled ∧
    (create_session .cancelledBefore (fun _ => .running) (fun _ => .ok) ['1']
        ⟨['t'], ['p'], 1, .running, 0, 0, 0, []⟩).1.failed_sessions = 1 :=
  ⟨rfl, rfl, rfl⟩

/-- C5 (amended).  A cancellation observed at a suspension point inside
the iteration loop (`create_session` lines 239-241) increments no counter
beyond what the completed iterations already recorded: the session exits
as `cancelled`, `completed_sessions` grew only by the `j - 1` successful
iterations, `failed_sessions` and `active_sessions` are unchanged, and
every record the session appended is a success record.  A cancellation
delivered before the iteration loop, however, is caught by the outer
handler (lines 278-280) and increments `failed_sessions` by exactly
one. -/
theorem c5_cancellation (t : Task) (sid : Str) (statusAt : Nat → TaskStatus)
    (events : Nat → IterEvent) (j : Nat)
    (hs : ∀ i, statusAt i = .running) (hj1 : 1 ≤ j) (hj5 : j ≤ 5)
    (he : ∀ i, 1 ≤ i → i < j → events i = .ok) (hej : events j = .cancelled) :
    ((create_session .proceed statusAt events sid t).2.2 = .cancelled ∧
     (create_session .proceed statusAt events sid t).1.completed_sessions
        = t.completed_sessions + (j - 1) ∧
     (create_session .proceed statusAt events sid t).1.failed_sessions
        = t.failed_sessions ∧
     (create_session .proceed statusAt events sid t).1.active_sessions
        = t.active_sessions ∧
     (∀ x ∈ (create_session .proceed statusAt events sid t).1.results,
        x ∈ t.results ∨ x.success = true)) ∧
    ((create_session .cancelledBefore statusAt events sid t).2.2 = .cancelled ∧
     (create_session .cancelledBefore statusAt events sid t).1.failed_sessions
        = t.failed_sessions + 1 ∧
     (create_session .cancelledBefore statusAt events sid t).1.completed_sessions
        = t.completed_sessions ∧
     (create_session .cancelledBefore statusAt events sid t).1.active_sessions
        = t.active_sessions) := by
  obtain ⟨h1, h2, h3, h4, h5, h6⟩ := session_iters_stops_at statusAt events sid hs j hj5
    he (Or.inr (Or.inl hej)) (j - 1) 0
    { t with active_sessions := t.active_sessions + 1 } 5 (by omega) (by omega)
  obtain ⟨hfail, hexit⟩ := h5 hej
  constructor
  · unfold create_session
    dsimp only
    rw [hexit]
    dsimp only
    refine ⟨rfl, ?_, ?_, ?_, ?_⟩
    · simpa using h1
    · simpa using hfail
    · simp [h2]
    · intro x hx
      rcases h3 x (by simpa using hx) with hmem | hsucc
      · exact Or.inl (by simpa using hmem)
      · exact Or.inr hsucc
  · exact ⟨rfl, rfl, rfl, rfl⟩

/-- Witness for C5 (amended): cancellation in the very first iteration of
a fresh session. -/
theorem c5_cancellation_witness :
    (∀ i : Nat, (fun _ : Nat => TaskStatus.running) i = TaskStatus.running) ∧
    (∀ i : Nat, 1 ≤ i → i < 1 → (fun _ : Nat => IterEvent.cancelled) i = IterEvent.ok) ∧
    ((fun _ : Nat => IterEvent.cancelled) 1 = IterEvent.cancelled) ∧
    (((create_session .proceed (fun _ => .running) (fun _ => .cancelled) ['1']
        ⟨['t'], ['p'], 1, .running, 0, 0, 0, []⟩).2.2 = .cancelled ∧
      (create_session .proceed (fun _ => .running) (fun _ => .cancelled) ['1']
        ⟨['t'], ['p'], 1, .running, 0, 0, 0, []⟩).1.completed_sessions
         = (⟨['t'], ['p'], 1, .running, 0, 0, 0, []⟩ : Task).completed_sessions + (1 - 1) ∧
      (create_session .proceed (fun _ => .running) (fun _ => .cancelled) ['1']
        ⟨['t'], ['p'], 1, .running, 0, 0, 0, []⟩).1.failed_sessions
         = (⟨['t'], ['p'], 1, .running, 0, 0, 0, []⟩ : Task).failed_sessions ∧
      (create_session .proceed (fun _ => .running) (fun _ => .cancelled) ['1']
        ⟨['t'], ['p'], 1, .running, 0, 0, 0, []⟩).1.active_sessions
         = (⟨['t'], ['p'], 1, .running, 0, 0, 0, []⟩ : Task).active_sessions ∧
      (∀ x ∈ (create_session .proceed (fun _ => .running) (fun _ => .cancelled) ['1']
        ⟨['t'], ['p'], 1, .running, 0, 0, 0, []⟩).1.results,
         x ∈ (⟨['t'], ['p'], 1, .running, 0, 0, 0, []⟩ : Task).results ∨ x.success = true)) ∧
     ((create_session .cancelledBefore (fun _ => .running) (fun _ => .cancelled) ['1']
        ⟨['t'], ['p'], 1, .running, 0, 0, 0, []⟩).2.2 = .cancelled ∧
      (create_session .cancelledBefore (fun _ => .running) (fun _ => .cancelled) ['1']
        ⟨['t'], ['p'], 1, .running, 0, 0, 0, []⟩).1.failed_sessions
         = (⟨['t'], ['p'], 1, .running, 0, 0, 0, []⟩ : Task).failed_sessions + 1 ∧
      (create_session .cancelledBefore (fun _ => .running) (fun _ => .cancelled) ['1']
        ⟨['t'], ['p'], 1, .running, 0, 0, 0, []⟩).1.completed_sessions
         = (⟨['t'], ['p'], 1, .running, 0, 0, 0, []⟩ : Task).completed_sessions ∧
      (create_session .cancelledBefore (fun _ => .running) (fun _ => .cancelled) ['1']
        ⟨['t'], ['p'], 1, .running, 0, 0, 0, []⟩).1.active_sessions
         = (⟨['t'], ['p'], 1, .running, 0, 0, 0, []⟩ : Task).active_sessions)) :=
  ⟨fun _ => rfl, fun _ _ h2 => absurd h2 (by omega), rfl,
   c5_cancellation ⟨['t'], ['p'], 1, .running, 0, 0, 0, []⟩ ['1']
     (fun _ => .running) (fun _ => .cancelled) 1 (fun _ => rfl) (by omega) (by omega)
     (fun _ _ h2 => absurd h2 (by omega)) rfl⟩

/-- A concrete fresh task used by witnesses and counterexamples. -/
def sampleTask : Task := ⟨['t'], ['p'], 1, .running, 0, 0, 0, []⟩

/-- C6 counterexample.  The claim says any bounded-wait timeout inside an
iteration aborts it, increments `failedSessions` and records a failure
outcome in the task's results.  Two refutations on a fresh task:
(1) a page/input/submit bounded-wait timeout in iteration 1 does
increment `failed_sessions` but appends nothing to `results` — the
timeout handler (lines 235-238) runs `task.failed_sessions += 1; break`
and never calls `save_result`, so no failure outcome is recorded;
(2) the 60 s bounded wait for the Restart affordance is swallowed inside
`_wait_and_click_restart` (lines 331-332), so a session whose restart
wait times out in every iteration still completes all 5 iterations,
exits `done`, and records no failure at all. -/
theorem c6_counterexample :
    ((create_session .proceed (fun _ => .running) (fun _ => .timeout) ['1']
        sampleTask).1.failed_sessions = 1 ∧
     (create_session .proceed (fun _ => .running) (fun _ => .timeout) ['1']
        sampleTask).1.results = [] ∧
     (create_session .proceed (fun _ => .running) (fun _ => .timeout) ['1']
        sampleTask).2.2 = .timedOut) ∧
    ((create_session .proceed (fun _ => .running) (fun _ => .restartTimeout) ['1']
        sampleTask).2.2 = .done ∧
     (create_session .proceed (fun _ => .running) (fun _ => .restartTimeout) ['1']
        sampleTask).1.failed_sessions = 0 ∧
     (create_session .proceed (fun _ => .running) (fun _ => .restartTimeout) ['1']
        sampleTask).1.completed_sessions = 5) :=
  ⟨⟨rfl, rfl, rfl⟩, ⟨rfl, rfl, rfl⟩⟩

/-- C6 (amended).  A bounded-wait timeout other than the restart-wait,
hitting iteration `j` after `j - 1` successful iterations, aborts that
iteration, increments `failed_sessions` by exactly one, ends the session
as `timedOut` with no further iterations, and records no failure outcome
in the task's results (every record the session appended is a success
record); a restart-wait timeout, by contrast, never aborts: a session
whose restart wait times out in every iteration still completes all 5
iterations and exits `done`. -/
theorem c6_timeout (t : Task) (sid : Str) (statusAt : Nat → TaskStatus)
    (events events2 : Nat → IterEvent) (j : Nat)
    (hs : ∀ i, statusAt i = .running) (hj1 : 1 ≤ j) (hj5 : j ≤ 5)
    (he : ∀ i, 1 ≤ i → i < j → events i = .ok) (hej : events j = .timeout)
    (he2 : ∀ i, events2 i = .restartTimeout) :
    ((create_session .proceed statusAt events sid t).2.2 = .timedOut ∧
     (create_session .proceed statusAt events sid t).1.failed_sessions
        = t.failed_sessions + 1 ∧
     (create_session .proceed statusAt events sid t).1.completed_sessions
        = t.completed_sessions + (j - 1) ∧
     (create_session .proceed statusAt events sid t).1.active_sessions
        = t.active_sessions ∧
     (∀ x ∈ (create_session .proceed statusAt events sid t).1.results,
        x ∈ t.results ∨ x.success = true)) ∧
    ((create_session .proceed statusAt events2 sid t).2.2 = .done ∧
     (create_session .proceed statusAt events2 sid t).1.completed_sessions
        = t.completed_sessions + 5 ∧
     (create_session .proceed statusAt events2 sid t).1.failed_sessions
        = t.failed_sessions) := by
  obtain ⟨h1, h2, h3, h4, h5, h6⟩ := session_iters_stops_at statusAt events sid hs j hj5
    he (Or.inl hej) (j - 1) 0
    { t with active_sessions := t.active_sessions + 1 } 5 (by omega) (by omega)
  obtain ⟨hfail, hexit⟩ := h4 hej
  constructor
  · unfold create_session
    dsimp only
    rw [hexit]
    dsimp only
    refine ⟨rfl, ?_, ?_, ?_, ?_⟩
    · simpa using hfail
    · simpa using h1
    · simp [h2]
    · intro x hx
      rcases h3 x (by simpa using hx) with hmem | hsucc
      · exact Or.inl (by simpa using hmem)
      · exact Or.inr hsucc
  · obtain ⟨g1, g2, g3, g4⟩ := session_iters_all_ok statusAt events2 sid hs
      (fun i => Or.inr (he2 i)) 5 0 { t with active_sessions := t.active_sessions + 1 } rfl
    unfold create_session
    dsimp only
    rw [g4]
    dsimp only
    refine ⟨rfl, ?_, ?_⟩ <;> simp [g1, g2]

/-- Witness for C6 (amended): timeout in the first iteration of a fresh
session, and an all-restart-timeouts session. -/
theorem c6_timeout_witness :
    (∀ i : Nat, (fun _ : Nat => TaskStatus.running) i = TaskStatus.running) ∧
    (∀ i : Nat, 1 ≤ i → i < 1 → (fun _ : Nat => IterEvent.timeout) i = IterEvent.ok) ∧
    ((fun _ : Nat => IterEvent.timeout) 1 = IterEvent.timeout) ∧
    (∀ i : Nat, (fun _ : Nat => IterEvent.restartTimeout) i = IterEvent.restartTimeout) ∧
    (((create_session .proceed (fun _ => .running) (fun _ => .timeout) ['1']
        sampleTask).2.2 = .timedOut ∧
      (create_session .proceed (fun _ => .running) (fun _ => .timeout) ['1']
        sampleTask).1.failed_sessions = sampleTask.failed_sessions + 1 ∧
      (create_session .proceed (fun _ => .running) (fun _ => .timeout) ['1']
        sampleTask).1.completed_sessions = sampleTask.completed_sessions + (1 - 1) ∧
      (create_session .proceed (fun _ => .running) (fun _ => .timeout) ['1']
        sampleTask).1.active_sessions = sampleTask.active_sessions ∧
      (∀ x ∈ (create_session .proceed (fun _ => .running) (fun _ => .timeout) ['1']
        sampleTask).1.results, x ∈ sampleTask.results ∨ x.success = true)) ∧
     ((create_session .proceed (fun _ => .running) (fun _ => .restartTimeout) ['1']
        sampleTask).2.2 = .done ∧
      (create_session .proceed (fun _ => .running) (fun _ => .restartTimeout) ['1']
        sampleTask).1.completed_sessions = sampleTask.completed_sessions + 5 ∧
      (create_session .proceed (fun _ => .running) (fun _ => .restartTimeout) ['1']
        sampleTask).1.failed_sessions = sampleTask.failed_sessions)) :=
  ⟨fun _ => rfl, fun _ _ h2 => absurd h2 (by omega), rfl, fun _ => rfl,
   c6_timeout sampleTask ['1'] (fun _ => .running) (fun _ => .timeout)
     (fun _ => .restartTimeout) 1 (fun _ => rfl) (by omega) (by omega)
     (fun _ _ h2 => absurd h2 (by omega)) rfl (fun _ => rfl)⟩

/-! ## Interleaved counter mutations (C7, C8)

Many sessions of one task run concurrently on the event loop and mutate
the shared `Task` fields.  A trace is the sequence, in event-loop order,
of the individual mutations the code performs on one task's fields. -/

/-- The counter reset at the top of `run_task`
(`gemini_automation_extended.py` lines 338-341): `status = "running"`,
`active_sessions = 0`, `completed_sessions = 0`, `failed_sessions = 0`.
It runs on every start of the task, including a restart. -/
def run_task_init (t : Task) : Task :=
  { t with status := .running, active_sessions := 0, completed_sessions := 0,
           failed_sessions := 0 }

/-- Session-id rendering `str(session_id_counter)` (`run_task` line 396). -/
def natStr (n : Nat) : Str := (toString n).data

/-- One mutation of a task's shared fields, tagged with the session
instance `s` performing it where applicable:

* `reset` — `run_task` lines 338-341 (start or restart of the task);
* `incActive s` — `create_session` line 161;
* `decActive s` — `create_session` line 244 (the inner `finally`);
* `okIter s it` — `create_session` lines 231-232 (success of iteration
  `it`: counter increment plus appended success record);
* `failIter s` — `create_session` line 237, 280 or 283;
* `stopSet` — `stop_task` line 438. -/
inductive Ev
  | reset
  | incActive (s : Nat)
  | decActive (s : Nat)
  | okIter (s : Nat) (it : Nat)
  | failIter (s : Nat)
  | stopSet
deriving DecidableEq, Repr

/-- Effect of one mutation on the task. -/
def applyEv (t : Task) : Ev → Task
  | .reset => run_task_init t
  | .incActive _ => { t with active_sessions := t.active_sessions + 1 }
  | .decActive _ => { t with active_sessions := t.active_sessions - 1 }
  | .okIter s it => { t with completed_sessions := t.completed_sessions + 1,
                             results := t.results ++ [⟨natStr s, true, it⟩] }
  | .failIter _ => { t with failed_sessions := t.failed_sessions + 1 }
  | .stopSet => { t with status := .stopped }

/-- Run a mutation trace against a task. -/
def execTrace (t : Task) (tr : List Ev) : Task := tr.foldl applyEv t

def isInc : Ev → Bool
  | .incActive _ => true
  | _ => false

def isDec : Ev → Bool
  | .decActive _ => true
  | _ => false

/-- Every mutation other than the `run_task` counter reset leaves both
outcome counters no smaller than before. -/
lemma applyEv_counters_mono (t : Task) (e : Ev) (h : e ≠ Ev.reset) :
    t.completed_sessions ≤ (applyEv t e).completed_sessions ∧
    t.failed_sessions ≤ (applyEv t e).failed_sessions := by
  cases e
  case reset => exact absurd rfl h
  all_goals simp [applyEv]

lemma execTrace_counters_mono (tr : List Ev) (h : Ev.reset ∉ tr) :
    ∀ t : Task, t.completed_sessions ≤ (execTrace t tr).completed_sessions ∧
      t.failed_sessions ≤ (execTrace t tr).failed_sessions := by
  induction tr with
  | nil => intro t; exact ⟨le_refl _, le_refl _⟩
  | cons e tr ih =>
    intro t
    have he : e ≠ Ev.reset := fun hc => h (hc ▸ List.mem_cons_self e tr)
    have h1 := applyEv_counters_mono t e he
    have h2 := ih (fun hc => h (List.mem_cons_of_mem e hc)) (applyEv t e)
    exact ⟨le_trans h1.1 h2.1, le_trans h1.2 h2.2⟩

/-- A task that has finished one run with recorded outcomes. -/
def finishedTask : Task :=
  { sampleTask with completed_sessions := 5,
                    failed_sessions := 2,
                    status := .completed }

/-- C8 counterexample.  The claim says `completedSessions` and
`failedSessions` never decrease under any sequence of control-plane
operations.  But starting a task re-runs `run_task`, whose first lines
(338-341) reset both counters to 0: a task that finished a run with
`completedSessions = 5` and is then started again drops to 0.  The
trace `[reset]` is exactly what the second `POST /api/tasks/{id}/start`
performs first. -/
theorem c8_counterexample :
    finishedTask.completed_sessions = 5 ∧
    (execTrace finishedTask [Ev.reset]).completed_sessions = 0 ∧
    (execTrace finishedTask [Ev.reset]).failed_sessions = 0 :=
  ⟨rfl, rfl, rfl⟩

/-- C8 (amended).  Within one run — that is, along any mutation trace
that contains no `run_task` counter reset — `completed_sessions` and
`failed_sessions` are monotonically non-decreasing: every prefix of the
trace shows counter values no larger than the full trace, whatever
session outcomes and stop requests it interleaves.  (A further start of
the task resets both counters to 0, which is the only decreasing
mutation.) -/
theorem c8_counters_monotone (t : Task) (tr pre : List Ev)
    (hpre : pre <+: tr) (hnr : Ev.reset ∉ tr) :
    (execTrace t pre).completed_sessions ≤ (execTrace t tr).completed_sessions ∧
    (execTrace t pre).failed_sessions ≤ (execTrace t tr).failed_sessions := by
  obtain ⟨rest, rfl⟩ := hpre
  have hrest : Ev.reset ∉ rest := fun hc => hnr (List.mem_append_right pre hc)
  simp only [execTrace, List.foldl_append]
  exact execTrace_counters_mono rest hrest (execTrace t pre)

/-- Witness for C8 (amended): a stop request and a failure after two
successes never decrease the counters. -/
theorem c8_counters_monotone_witness :
    ([Ev.okIter 1 1, Ev.okIter 1 2]
        <+: [Ev.okIter 1 1, Ev.okIter 1 2, Ev.stopSet, Ev.failIter 2]) ∧
    (Ev.reset ∉ [Ev.okIter 1 1, Ev.okIter 1 2, Ev.stopSet, Ev.failIter 2]) ∧
    ((execTrace sampleTask [Ev.okIter 1 1, Ev.okIter 1 2]).completed_sessions
        ≤ (execTrace sampleTask
            [Ev.okIter 1 1, Ev.okIter 1 2, Ev.stopSet, Ev.failIter 2]).completed_sessions ∧
     (execTrace sampleTask [Ev.okIter 1 1, Ev.okIter 1 2]).failed_sessions
        ≤ (execTrace sampleTask
            [Ev.okIter 1 1, Ev.okIter 1 2, Ev.stopSet, Ev.failIter 2]).failed_sessions) :=
  ⟨⟨[Ev.stopSet, Ev.failIter 2], rfl⟩, by decide,
   c8_counters_monotone sampleTask
     [Ev.okIter 1 1, Ev.okIter 1 2, Ev.stopSet, Ev.failIter 2]
     [Ev.okIter 1 1, Ev.okIter 1 2]
     ⟨[Ev.stopSet, Ev.failIter 2], rfl⟩ (by decide)⟩

/-- Accounting: along any trace without a reset, `active_sessions` moves
by exactly the number of increments minus the number of decrements. -/
lemma execTrace_active (tr : List Ev) (h : Ev.reset ∉ tr) :
    ∀ t : Task, (execTrace t tr).active_sessions
      = t.active_sessions + (tr.countP isInc : Int) - (tr.countP isDec : Int) := by
  induction tr with
  | nil => intro t; simp [execTrace]
  | cons e tr ih =>
    intro t
    have he : e ≠ Ev.reset := fun hc => h (hc ▸ List.mem_cons_self e tr)
    have h2 := ih (fun hc => h (List.mem_cons_of_mem e hc)) (applyEv t e)
    rw [show execTrace t (e :: tr) = execTrace (applyEv t e) tr from rfl, h2]
    cases e
    case reset => exact absurd rfl he
    all_goals simp [applyEv, isInc, isDec, List.countP_cons] <;> omega

/-- Counting a tagged family: the number of events satisfying the family
predicate equals the sum over tags of per-tag counts, provided every tag
occurring lies below `n`. -/
lemma countP_eq_sum_count (p : Ev → Bool) (g : Nat → Ev)
    (hg : ∀ s s', g s = g s' → s = s')
    (hp : ∀ e, p e = true ↔ ∃ s, e = g s) (n : Nat) :
    ∀ l : List Ev, (∀ s, g s ∈ l → s < n) →
      l.countP p = ∑ s ∈ Finset.range n, l.count (g s) := by
  intro l
  induction l with
  | nil => simp
  | cons e l ih =>
    intro h
    have hl := ih (fun s hs => h s (List.mem_cons_of_mem e hs))
    rw [List.countP_cons, hl]
    by_cases hpe : p e = true
    · obtain ⟨s0, rfl⟩ := (hp e).1 hpe
      have hs0 : s0 < n := h s0 (List.mem_cons_self _ _)
      have hcnt : ∀ s, (g s0 :: l).count (g s)
          = l.count (g s) + if s = s0 then 1 else 0 := by
        intro s
        rw [List.count_cons]
        congr 1
        by_cases hss : s = s0
        · subst hss; simp
        · have : g s0 ≠ g s := fun hc => hss (hg s s0 hc.symm)
          simp [this, hss]
      rw [Finset.sum_congr rfl (fun s _ => hcnt s), Finset.sum_add_distrib,
        Finset.sum_ite_eq' (Finset.range n) s0 (fun _ => 1)]
      simp [hpe, hs0]
    · have hne : ∀ s, g s ≠ e := fun s hc => hpe ((hp e).2 ⟨s, hc.symm⟩)
      have hcnt : ∀ s, (e :: l).count (g s) = l.count (g s) := by
        intro s
        rw [List.count_cons]
        simp [Ne.symm (hne s)]
      rw [Finset.sum_congr rfl (fun s _ => hcnt s)]
      simp [hpe]

/-- C7 counterexample.  The claim says `0 ≤ activeSessions ≤ sessionCount`
at every point in execution.  Nothing stops `POST /start` from being
called again while sessions of the first run are still in flight, and
`run_task` then resets `active_sessions` to 0 (line 339) mid-run.  With
`sessionCount = 1`: (a) first start resets; its session increments
(`active = 1`); a second start resets to 0; the first session's `finally`
then decrements, leaving `active_sessions = -1 < 0`; (b) alternatively,
the first run's session is still in its start-delay sleep (the line-161
increment comes after the delay) when the second start resets, and then
both the old session and the second run's session increment, leaving
`active_sessions = 2 > sessionCount`. -/
theorem c7_counterexample :
    sampleTask.session_count = 1 ∧
    (execTrace sampleTask
      [Ev.reset, Ev.incActive 0, Ev.reset, Ev.decActive 0]).active_sessions = -1 ∧
    (execTrace sampleTask
      [Ev.reset, Ev.reset, Ev.incActive 0, Ev.incActive 1]).active_sessions = 2 := by
  refine ⟨rfl, ?_, ?_⟩ <;> decide

/-- C7 (amended).  Within a single run — starting from the state the
`run_task` reset produces (`active_sessions = 0`), along any mutation
trace with no further reset — `0 ≤ activeSessions ≤ sessionCount` holds
at every point.  The trace hypotheses are the code's discipline: each
session instance runs line 161 at most once (`count incActive ≤ 1`);
line 244 sits in a `finally` below line 161, so in every prefix a
session's decrements never exceed its increments; and at most
`sessionCount` session instances are ever launched, which is the wave-sum
property of C1 (`run_task` lines 374-405). -/
theorem c7_active_bounds (t0 : Task) (tr : List Ev)
    (h0 : t0.active_sessions = 0)
    (hnr : Ev.reset ∉ tr)
    (hone : ∀ s, tr.count (Ev.incActive s) ≤ 1)
    (hdec : ∀ s pre, pre <+: tr →
      pre.count (Ev.decActive s) ≤ pre.count (Ev.incActive s))
    (hsid : ∀ s, Ev.incActive s ∈ tr → s < t0.session_count) :
    ∀ pre, pre <+: tr →
      0 ≤ (execTrace t0 pre).active_sessions ∧
      (execTrace t0 pre).active_sessions ≤ (t0.session_count : Int) := by
  intro pre hpre
  have hnrp : Ev.reset ∉ pre := fun hc => hnr (hpre.sublist.subset hc)
  have hsidp : ∀ s, Ev.incActive s ∈ pre → s < t0.session_count :=
    fun s hs => hsid s (hpre.sublist.subset hs)
  have hsidd : ∀ s, Ev.decActive s ∈ pre → s < t0.session_count := by
    intro s hs
    have hc1 : 1 ≤ pre.count (Ev.decActive s) := List.one_le_count_iff.2 hs
    have hc2 : 1 ≤ pre.count (Ev.incActive s) := le_trans hc1 (hdec s pre hpre)
    exact hsidp s (List.one_le_count_iff.1 hc2)
  have hinc := countP_eq_sum_count isInc Ev.incActive
    (fun s s' h => by injection h) (fun e => by cases e <;> simp [isInc])
    t0.session_count pre hsidp
  have hdecP := countP_eq_sum_count isDec Ev.decActive
    (fun s s' h => by injection h) (fun e => by cases e <;> simp [isDec])
    t0.session_count pre hsidd
  have hdec_le_inc : pre.countP isDec ≤ pre.countP isInc := by
    rw [hinc, hdecP]
    exact Finset.sum_le_sum (fun s _ => hdec s pre hpre)
  have hinc_le_n : pre.countP isInc ≤ t0.session_count := by
    rw [hinc]
    calc ∑ s ∈ Finset.range t0.session_count, pre.count (Ev.incActive s)
        ≤ ∑ s ∈ Finset.range t0.session_count, 1 :=
          Finset.sum_le_sum (fun s _ =>
            le_trans (hpre.sublist.count_le (Ev.incActive s)) (hone s))
      _ = t0.session_count := by simp
  have hact := execTrace_active pre hnrp t0
  rw [hact, h0]
  omega

/-- Witness for C7 (amended): one launched session of a one-session run. -/
theorem c7_active_bounds_witness :
    0 ≤ (execTrace (run_task_init sampleTask) [Ev.incActive 0]).active_sessions ∧
    (execTrace (run_task_init sampleTask) [Ev.incActive 0]).active_sessions
      ≤ ((run_task_init sampleTask).session_count : Int) :=
  c7_active_bounds (run_task_init sampleTask) [Ev.incActive 0] rfl (by decide)
    (fun s => by
      by_cases h : s = 0
      · subst h; decide
      · have : Ev.incActive s ≠ Ev.incActive 0 := by simp [h]
        simp [List.count_cons, this.symm])
    (fun s pre hpre => by
      have hnot : Ev.decActive s ∉ pre := by
        intro hmem
        have := hpre.sublist.subset hmem
        simp at this
      simp [List.count_eq_zero.2 hnot])
    (fun s hs => by
      simp at hs
      simp [hs, run_task_init, sampleTask])
    [Ev.incActive 0] (List.prefix_refl _)

/-! ## The session registry and the manager operations on it
(C3, C4, C9, C10)

`self.session_tasks` is a dict keyed by `f"{task_id}_{session_id}"`
(`create_session` line 121, `run_task` line 401); an entry stands for a
live (registered) session.  Each entry carries its owning task id and
session id — the key is derived from them exactly as in the code — plus
one bit of session progress: whether the session has already executed the
`active_sessions += 1` of line 161 (and not yet the `finally` decrement
of line 244).  Cancelling a registered session and awaiting it runs the
session's unwind: an incremented session is cancelled inside its
iteration loop, so the inner handler breaks and the `finally` decrements
`active_sessions`; a not-yet-incremented session (still in its start
delay) unwinds straight to the outer handler, which increments
`failed_sessions` (lines 278-280). -/

structure RegEntry where
  taskOf : Str
  sid : Str
  incremented : Bool
deriving DecidableEq, Repr

/-- The dict key `f"{task_id}_{session_id}"`. -/
def RegEntry.key (e : RegEntry) : Str := e.taskOf ++ ['_'] ++ e.sid

/-- The manager state: the `self.tasks` dict (total map) and the
`self.session_tasks` registry. -/
structure Sys where
  tasks : Str → Task
  registry : List RegEntry

/-- Pointwise update of the task dict. -/
def updateT (m : Str → Task) (k : Str) (f : Task → Task) : Str → Task :=
  fun x => if x = k then f (m x) else m x

/-- Effect on the task dict of cancelling one registered session and
awaiting its acknowledgment (see the section comment). -/
def cancelUnwind (tasks : Str → Task) (e : RegEntry) : Str → Task :=
  if e.incremented then
    updateT tasks e.taskOf
      (fun t => { t with active_sessions := t.active_sessions - 1 })
  else
    updateT tasks e.taskOf
      (fun t => { t with failed_sessions := t.failed_sessions + 1 })

/-- Events visible in the order `stop_task` performs them. -/
inductive StopEv
  | setStatus
  | cancelAwait (key : Str)
deriving DecidableEq, Repr

/-- `stop_task` (`gemini_automation_extended.py` lines 432-455): set
`status = "stopped"` first, select every registry key `k` with
`k.startswith(task_id)`, cancel each selected session and await its
acknowledgment, delete the selected keys, and finally `save_to_file`.
Returns the new state, the ordered event list, and the snapshots
written. -/
def stop_task (task_id : Str) (s : Sys) : Sys × List StopEv × List Snapshot :=
  let tasks1 := updateT s.tasks task_id (fun t => { t with status := .stopped })
  let keys_to_remove := s.registry.filter (fun e => task_id.isPrefixOf e.key)
  let tasks2 := keys_to_remove.foldl cancelUnwind tasks1
  (⟨tasks2, s.registry.filter (fun e => !(task_id.isPrefixOf e.key))⟩,
   .setStatus :: keys_to_remove.map (fun e => .cancelAwait e.key),
   [(tasks2 task_id).snapshot])

/-- The tail of `run_task` (`gemini_automation_extended.py` lines
412-421): while any registry key starts with the task id, keep waiting
(modelled as one more check that leaves the state unchanged); once none
does, and only if the status is still `"running"`, set
`status = "completed"` and `save_to_file`. -/
def run_task_finish (task_id : Str) (s : Sys) : Sys × List Snapshot :=
  if 0 < (s.registry.filter (fun e => task_id.isPrefixOf e.key)).length then
    (s, [])
  else if (s.tasks task_id).status = .running then
    let tasks2 := updateT s.tasks task_id (fun t => { t with status := .completed })
    (⟨tasks2, s.registry⟩, [(tasks2 task_id).snapshot])
  else (s, [])

/-- The unwind fold only ever touches `active_sessions` and
`failed_sessions`; every other field of every task is preserved. -/
lemma stopFold_fields (entries : List RegEntry) :
    ∀ (m : Str → Task) (x : Str),
      ((entries.foldl cancelUnwind m) x).status = (m x).status ∧
      ((entries.foldl cancelUnwind m) x).completed_sessions
        = (m x).completed_sessions ∧
      ((entries.foldl cancelUnwind m) x).session_count = (m x).session_count := by
  induction entries with
  | nil => intro m x; exact ⟨rfl, rfl, rfl⟩
  | cons e es ih =>
    intro m x
    have h2 := ih (cancelUnwind m e) x
    have he : ((cancelUnwind m e) x).status = (m x).status ∧
        ((cancelUnwind m e) x).completed_sessions = (m x).completed_sessions ∧
        ((cancelUnwind m e) x).session_count = (m x).session_count := by
      unfold cancelUnwind updateT
      by_cases h1 : e.incremented <;> by_cases h2 : x = e.taskOf <;> simp [h1, h2]
    simp only [List.foldl_cons]
    exact ⟨h2.1.trans he.1, h2.2.1.trans he.2.1, h2.2.2.trans he.2.2⟩

/-- The unwind fold subtracts from a task's `active_sessions` exactly the
number of processed entries that belong to that task and had
incremented. -/
lemma stopFold_active (entries : List RegEntry) :
    ∀ (m : Str → Task) (tid : Str),
      ((entries.foldl cancelUnwind m) tid).active_sessions
        = (m tid).active_sessions
          - (entries.countP (fun e => decide (e.taskOf = tid) && e.incremented) : Int) := by
  induction entries with
  | nil => intro m tid; simp
  | cons e es ih =>
    intro m tid
    simp only [List.foldl_cons, List.countP_cons]
    rw [ih (cancelUnwind m e) tid]
    have : ((cancelUnwind m e) tid).active_sessions
        = (m tid).active_sessions
          - (if decide (e.taskOf = tid) && e.incremented then 1 else 0) := by
      unfold cancelUnwind updateT
      by_cases h1 : e.incremented <;> by_cases h2 : e.taskOf = tid
      · subst h2; simp [h1]
      · have h2' : ¬ tid = e.taskOf := fun hc => h2 hc.symm
        simp [h1, h2, h2']
      · subst h2; simp [h1]
      · have h2' : ¬ tid = e.taskOf := fun hc => h2 hc.symm
        simp [h1, h2, h2']
    rw [this]
    split <;> push_cast <;> omega

/-- A task's own registry keys always start with the task id, because the
key is built as `f"{task_id}_{session_id}"`. -/
lemma key_starts_with_own (e : RegEntry) : e.taskOf.isPrefixOf e.key = true := by
  rw [ List.isPrefixOf_iff_prefix]
  unfold RegEntry.key
  rw [List.append_assoc]
  exact List.prefix_append _ _

/-- A reachable mid-double-start state of task `"a"`: the first start's
session 1 has incremented `active_sessions`; a second `POST /start` has
just re-run the `run_task` reset (line 339), zeroing `active_sessions`,
and is suspended at the `task_wave` notification await (line 387) before
launching its own wave — so the registry still holds the first run's
session, registered and incremented, while the counter reads 0. -/
def doubleStartSys : Sys :=
  ⟨fun k => if k = ['a'] then
      { sampleTask with id := ['a'], active_sessions := 0, status := .running }
    else sampleTask,
   [⟨['a'], ['1'], true⟩]⟩

/-- C3 counterexample.  The claim says that after `stop(taskId)` returns
the task's `activeSessions` equals 0.  From `doubleStartSys`, `stop_task`
cancel-awaits the first run's registered session; its unwind runs the
`finally` decrement of line 244 against the counter the second start had
already reset, and `stop_task` returns with `active_sessions = -1 ≠ 0`
(the registry is nonetheless drained). -/
theorem c3_counterexample :
    (stop_task ['a'] doubleStartSys).1.registry = [] ∧
    ((stop_task ['a'] doubleStartSys).1.tasks ['a']).active_sessions = -1 ∧
    ¬ ((stop_task ['a'] doubleStartSys).1.tasks ['a']).active_sessions = 0 := by
  refine ⟨?_, ?_, ?_⟩ <;> decide

/-- C3 (amended).  Unconditionally, `stop_task` leaves no registry entry
whose key starts with the task id (in particular none belonging to the
task), leaves the task's status `stopped`, performs the status write as
its first action, and cancel-awaits every selected registry key before
returning.  The `activeSessions = 0` part holds provided the task was
started only once, so that `active_sessions` still counts exactly the
registered sessions of this task that hold an active increment — the
invariant a single run's `create_session` discipline maintains
(hypothesis `hinv`); a second start's counter reset (`run_task` line
339) breaks that invariant and `stop_task` can then return with
`active_sessions` below zero (see the C3 counterexample). -/
theorem c3_stop_task (tid : Str) (s : Sys)
    (hinv : (s.tasks tid).active_sessions
      = (s.registry.countP (fun e => decide (e.taskOf = tid) && e.incremented) : Int)) :
    (∀ e ∈ (stop_task tid s).1.registry, tid.isPrefixOf e.key = false) ∧
    (∀ e ∈ (stop_task tid s).1.registry, e.taskOf ≠ tid) ∧
    ((stop_task tid s).1.tasks tid).active_sessions = 0 ∧
    ((stop_task tid s).1.tasks tid).status = .stopped ∧
    ((stop_task tid s).2.1).head? = some .setStatus ∧
    (∀ e ∈ s.registry, tid.isPrefixOf e.key = true →
      StopEv.cancelAwait e.key ∈ ((stop_task tid s).2.1).tail) := by
  have hreg : ∀ e ∈ (stop_task tid s).1.registry, tid.isPrefixOf e.key = false := by
    intro e he
    have := (List.mem_filter.1 he).2
    simpa using this
  refine ⟨hreg, ?_, ?_, ?_, rfl, ?_⟩
  · intro e he hc
    have hfalse := hreg e he
    have htrue : tid.isPrefixOf e.key = true := hc ▸ key_starts_with_own e
    rw [htrue] at hfalse
    simp at hfalse
  · have hgoal : (stop_task tid s).1.tasks tid
        = ((s.registry.filter (fun e => tid.isPrefixOf e.key)).foldl cancelUnwind
            (updateT s.tasks tid (fun t => { t with status := .stopped }))) tid := rfl
    rw [hgoal, stopFold_active]
    have h1 :
        (updateT s.tasks tid (fun t => { t with status := .stopped }) tid).active_sessions
          = (s.tasks tid).active_sessions := by
      simp [updateT]
    have h2 : (List.filter (fun e => tid.isPrefixOf e.key) s.registry).countP
        (fun e => decide (e.taskOf = tid) && e.incremented)
        = s.registry.countP (fun e => decide (e.taskOf = tid) && e.incremented) := by
      rw [List.countP_filter]
      refine List.countP_congr ?_
      intro e _
      constructor
      · intro h
        simp only [Bool.and_eq_true] at h ⊢
        exact h.1
      · intro h
        simp only [Bool.and_eq_true] at h ⊢
        have htid : e.taskOf = tid := by simpa using h.1
        refine ⟨h, ?_⟩
        exact htid ▸ key_starts_with_own e
    rw [h1, h2, hinv]
    omega
  · have hgoal : (stop_task tid s).1.tasks tid
        = ((s.registry.filter (fun e => tid.isPrefixOf e.key)).foldl cancelUnwind
            (updateT s.tasks tid (fun t => { t with status := .stopped }))) tid := rfl
    rw [hgoal, (stopFold_fields _ _ _).1]
    simp [updateT]
  · intro e he hp
    have hmem : e ∈ List.filter (fun e => tid.isPrefixOf e.key) s.registry :=
      List.mem_filter.2 ⟨he, by simpa using hp⟩
    exact List.mem_map_of_mem (fun e => StopEv.cancelAwait e.key) hmem

/-- A single-task, single-session system in which the session has already
executed its `active_sessions` increment. -/
def sampleSys : Sys :=
  ⟨fun k => if k = ['a'] then
      { sampleTask with id := ['a'], active_sessions := 1 } else sampleTask,
   [⟨['a'], ['1'], true⟩]⟩

/-- Witness for C3 on `sampleSys`. -/
theorem c3_stop_task_witness :
    ((sampleSys.tasks ['a']).active_sessions
      = (sampleSys.registry.countP
          (fun e => decide (e.taskOf = ['a']) && e.incremented) : Int)) ∧
    ((∀ e ∈ (stop_task ['a'] sampleSys).1.registry,
        List.isPrefixOf ['a'] e.key = false) ∧
     (∀ e ∈ (stop_task ['a'] sampleSys).1.registry, e.taskOf ≠ ['a']) ∧
     ((stop_task ['a'] sampleSys).1.tasks ['a']).active_sessions = 0 ∧
     ((stop_task ['a'] sampleSys).1.tasks ['a']).status = .stopped ∧
     ((stop_task ['a'] sampleSys).2.1).head? = some .setStatus ∧
     (∀ e ∈ sampleSys.registry, List.isPrefixOf ['a'] e.key = true →
        StopEv.cancelAwait e.key ∈ ((stop_task ['a'] sampleSys).2.1).tail)) :=
  ⟨by decide, c3_stop_task ['a'] sampleSys (by decide)⟩

/-- If no registry key starts with the task id, the registry holds no
entry of that task. -/
lemma drained_no_entries (tid : Str) (s : Sys)
    (h : (s.registry.filter (fun e => tid.isPrefixOf e.key)).length = 0) :
    ∀ e ∈ s.registry, e.taskOf ≠ tid := by
  intro e he hc
  have hf : e ∈ s.registry.filter (fun e => tid.isPrefixOf e.key) :=
    List.mem_filter.2 ⟨he, hc ▸ key_starts_with_own e⟩
  rw [List.length_eq_zero] at h
  rw [h] at hf
  exact absurd hf (List.not_mem_nil e)

/-- C4.  The tail of `run_task` marks a task `completed` exactly when it
was already `completed` or when it is still `running` and the busy-wait
has drained every registry key starting with the task id (in particular
the task then has no registered sessions); a task whose status was set to
`stopped` keeps status `stopped`, so a stopped task is never marked
completed. -/
theorem c4_completed_only_when_drained (tid : Str) (s : Sys) :
    ((((run_task_finish tid s).1.tasks tid).status = TaskStatus.completed) ↔
      ((s.tasks tid).status = TaskStatus.completed ∨
       ((s.tasks tid).status = TaskStatus.running ∧
        (s.registry.filter (fun e => tid.isPrefixOf e.key)).length = 0))) ∧
    ((s.tasks tid).status = TaskStatus.stopped →
      ((run_task_finish tid s).1.tasks tid).status = TaskStatus.stopped) ∧
    (((run_task_finish tid s).1.tasks tid).status = TaskStatus.completed →
      (s.tasks tid).status ≠ TaskStatus.completed →
      ∀ e ∈ s.registry, e.taskOf ≠ tid) := by
  unfold run_task_finish
  by_cases hlen : 0 < (s.registry.filter (fun e => tid.isPrefixOf e.key)).length
  · rw [if_pos hlen]
    refine ⟨?_, fun h => h, fun h hne => absurd h (by tauto)⟩
    constructor
    · intro h
      exact Or.inl h
    · intro h
      rcases h with h | ⟨_, hlen0⟩
      · exact h
      · omega
  · rw [if_neg hlen]
    have hlen0 : (s.registry.filter (fun e => tid.isPrefixOf e.key)).length = 0 := by
      omega
    by_cases hrun : (s.tasks tid).status = TaskStatus.running
    · rw [if_pos hrun]
      refine ⟨?_, ?_, ?_⟩
      · simp only [updateT, if_pos rfl]
        constructor
        · intro _
          exact Or.inr ⟨hrun, hlen0⟩
        · intro _
          rfl
      · intro hstop
        rw [hrun] at hstop
        exact absurd hstop (by simp)
      · intro _ _
        exact drained_no_entries tid s hlen0
    · rw [if_neg hrun]
      refine ⟨?_, fun h => h, ?_⟩
      · constructor
        · intro h
          exact Or.inl h
        · intro h
          rcases h with h | ⟨hr, _⟩
          · exact h
          · exact absurd hr hrun
      · intro hcompl _
        exact drained_no_entries tid s hlen0

/-- A system holding one stopped task and an empty registry, as left
behind by `stop_task`. -/
def stoppedSys : Sys := ⟨fun _ => { sampleTask with status := .stopped }, []⟩

/-- Witness for C4 on `stoppedSys`: the stopped task stays stopped and is
not marked completed. -/
theorem c4_completed_only_when_drained_witness :
    ((((run_task_finish ['a'] stoppedSys).1.tasks ['a']).status
        = TaskStatus.completed) ↔
      ((stoppedSys.tasks ['a']).status = TaskStatus.completed ∨
       ((stoppedSys.tasks ['a']).status = TaskStatus.running ∧
        (stoppedSys.registry.filter
          (fun e => List.isPrefixOf ['a'] e.key)).length = 0))) ∧
    ((stoppedSys.tasks ['a']).status = TaskStatus.stopped →
      ((run_task_finish ['a'] stoppedSys).1.tasks ['a']).status
        = TaskStatus.stopped) ∧
    (((run_task_finish ['a'] stoppedSys).1.tasks ['a']).status
        = TaskStatus.completed →
      (stoppedSys.tasks ['a']).status ≠ TaskStatus.completed →
      ∀ e ∈ stoppedSys.registry, e.taskOf ≠ ['a']) :=
  c4_completed_only_when_drained ['a'] stoppedSys

/-- C9.  The persistence contract: `save_result` appends one record and
writes a snapshot exactly when the accumulated result count reaches a
multiple of 10; the snapshot is always the full dump of
`{taskId, prompt, sessionCount, completedSessions, failedSessions,
results}`; `stop_task` unconditionally writes one final snapshot of the
stopped task; and the completion path of `run_task` (registry drained,
status still running) writes one final snapshot of the completed task. -/
theorem c9_persistence (t : Task) (sid : Str) (suc : Bool) (it : Nat)
    (tid : Str) (s : Sys)
    (hdr : (s.registry.filter (fun e => tid.isPrefixOf e.key)).length = 0)
    (hrun : (s.tasks tid).status = TaskStatus.running) :
    ((t.save_result sid suc it).1.results.length = t.results.length + 1) ∧
    ((t.save_result sid suc it).2 = [] ↔ ¬ (t.results.length + 1) % 10 = 0) ∧
    ((t.results.length + 1) % 10 = 0 →
      (t.save_result sid suc it).2 = [(t.save_result sid suc it).1.snapshot]) ∧
    (∀ u : Task, u.snapshot = ⟨u.id, u.prompt, u.session_count,
      u.completed_sessions, u.failed_sessions, u.results⟩) ∧
    ((stop_task tid s).2.2 = [((stop_task tid s).1.tasks tid).snapshot]) ∧
    ((run_task_finish tid s).2 = [((run_task_finish tid s).1.tasks tid).snapshot]) := by
  have hlen : ((t.save_result sid suc it).1.results.length = t.results.length + 1) := by
    simp [save_result_fst]
  refine ⟨hlen, ?_, ?_, fun u => rfl, rfl, ?_⟩
  · unfold Task.save_result
    dsimp only
    rw [List.length_append]
    by_cases hc : (t.results.length + 1) % 10 = 0
    · rw [if_pos (by simpa using hc)]
      simp [hc]
    · rw [if_neg (by simpa using hc)]
      simp [hc]
  · intro hc
    unfold Task.save_result
    dsimp only
    rw [List.length_append, if_pos (by simpa using hc)]
  · unfold run_task_finish
    rw [if_neg (by omega), if_pos hrun]

/-- A task that has accumulated nine results, so that the next record is
the tenth. -/
def nineResultsTask : Task :=
  { sampleTask with results := List.replicate 9 ⟨['1'], true, 1⟩ }

/-- A drained, still-running system (all sessions exited). -/
def drainedSys : Sys := ⟨fun _ => sampleTask, []⟩

/-- Witness for C9: the tenth record triggers a write; stop and
completion write final snapshots. -/
theorem c9_persistence_witness :
    ((drainedSys.registry.filter
        (fun e => List.isPrefixOf ['a'] e.key)).length = 0) ∧
    ((drainedSys.tasks ['a']).status = TaskStatus.running) ∧
    (((nineResultsTask.save_result ['1'] true 1).1.results.length
        = nineResultsTask.results.length + 1) ∧
     ((nineResultsTask.save_result ['1'] true 1).2 = [] ↔
        ¬ (nineResultsTask.results.length + 1) % 10 = 0) ∧
     ((nineResultsTask.results.length + 1) % 10 = 0 →
        (nineResultsTask.save_result ['1'] true 1).2
          = [(nineResultsTask.save_result ['1'] true 1).1.snapshot]) ∧
     (∀ u : Task, u.snapshot = ⟨u.id, u.prompt, u.session_count,
        u.completed_sessions, u.failed_sessions, u.results⟩) ∧
     ((stop_task ['a'] drainedSys).2.2
        = [((stop_task ['a'] drainedSys).1.tasks ['a']).snapshot]) ∧
     ((run_task_finish ['a'] drainedSys).2
        = [((run_task_finish ['a'] drainedSys).1.tasks ['a']).snapshot])) :=
  ⟨rfl, rfl, c9_persistence nineResultsTask ['1'] true 1 ['a'] drainedSys rfl rfl⟩

/-- C10.  `stop_task` selects registry keys with
`k.startswith(task_id)`; every selected entry is cancel-awaited and
removed.  Since keys are built as `taskId + "_" + sessionId`, whenever
one task's id is a string prefix of another's (`taskOf = t1 ++ r`), the
other task's registered sessions are also selected: stopping the prefix
task cancels and removes them too. -/
theorem c10_prefix_collision (t1 : Str) (s : Sys) :
    (∀ e ∈ s.registry, t1.isPrefixOf e.key = true →
      StopEv.cancelAwait e.key ∈ (stop_task t1 s).2.1 ∧
      e ∉ (stop_task t1 s).1.registry) ∧
    (∀ r : Str, ∀ e ∈ s.registry, e.taskOf = t1 ++ r →
      t1.isPrefixOf e.key = true ∧
      StopEv.cancelAwait e.key ∈ (stop_task t1 s).2.1 ∧
      e ∉ (stop_task t1 s).1.registry) := by
  have hmain : ∀ e ∈ s.registry, t1.isPrefixOf e.key = true →
      StopEv.cancelAwait e.key ∈ (stop_task t1 s).2.1 ∧
      e ∉ (stop_task t1 s).1.registry := by
    intro e he hp
    constructor
    · have hmem : e ∈ s.registry.filter (fun e => t1.isPrefixOf e.key) :=
        List.mem_filter.2 ⟨he, by simpa using hp⟩
      exact List.mem_cons_of_mem _
        (List.mem_map_of_mem (fun e => StopEv.cancelAwait e.key) hmem)
    · intro hmem
      have := (List.mem_filter.1 hmem).2
      rw [hp] at this
      simp at this
  refine ⟨hmain, ?_⟩
  intro r e he htask
  have hp : t1.isPrefixOf e.key = true := by
    rw [ List.isPrefixOf_iff_prefix]
    unfold RegEntry.key
    rw [htask, List.append_assoc, List.append_assoc]
    exact List.prefix_append _ _
  exact ⟨hp, hmain e he hp⟩

/-- A registry holding one session of task `"ab"`. -/
def collisionSys : Sys := ⟨fun _ => sampleTask, [⟨['a', 'b'], ['1'], true⟩]⟩

/-- Witness for C10: stopping task `"a"` cancels and removes the
registered session of task `"ab"`, whose id has `"a"` as a prefix. -/
theorem c10_prefix_collision_witness :
    ((⟨['a', 'b'], ['1'], true⟩ : RegEntry) ∈ collisionSys.registry) ∧
    ((⟨['a', 'b'], ['1'], true⟩ : RegEntry).taskOf = ['a'] ++ ['b']) ∧
    (List.isPrefixOf ['a'] (⟨['a', 'b'], ['1'], true⟩ : RegEntry).key = true ∧
     StopEv.cancelAwait (⟨['a', 'b'], ['1'], true⟩ : RegEntry).key
        ∈ (stop_task ['a'] collisionSys).2.1 ∧
     (⟨['a', 'b'], ['1'], true⟩ : RegEntry) ∉ (stop_task ['a'] collisionSys).1.registry) :=
  ⟨List.mem_singleton.2 rfl, rfl,
   (c10_prefix_collision ['a'] collisionSys).2 ['b'] ⟨['a', 'b'], ['1'], true⟩
     (List.mem_singleton.2 rfl) rfl⟩

end GeminiAuto
